import Mathlib

/-!
Shallow embedding of the secret-page-app backend (Express + Drizzle over
PostgreSQL). The relational store (tables `users`, `secret_messages`,
`friend_requests` from `src/db/schema.ts`) is modelled as lists of rows;
each HTTP handler from the server file becomes a pure function from the
database state and the request inputs to a response value and a new state.
Row ids that PostgreSQL would generate with `gen_random_uuid()` are passed
in as parameters, and timestamps as natural numbers. Foreign-key and
unique-constraint violations that the handlers catch and map to HTTP 500
are modelled as explicit `serverError` results.
-/

/-- A row of the `users` table: id (uuid, primary key), email, created_at. -/
structure User where
  id : String
  email : String
  createdAt : Nat
  deriving Repr, DecidableEq

/-- A row of the `secret_messages` table. `content` is written by the API
only after a non-empty-after-trim validation. -/
structure SecretMessage where
  id : String
  user_id : String
  content : String
  updated_at : Nat
  deriving Repr, DecidableEq

/-- The `status` column of `friend_requests`: 'pending' or 'accepted'. -/
inductive ReqStatus where
  | pending
  | accepted
  deriving Repr, DecidableEq

/-- A row of the `friend_requests` table: a directed edge sender → receiver. -/
structure FriendRequest where
  id : String
  sender_id : String
  receiver_id : String
  status : ReqStatus
  created_at : Nat
  deriving Repr, DecidableEq

/-- The database state: the three tables the handlers touch. -/
structure DBState where
  users : List User
  secretMessages : List SecretMessage
  friendRequests : List FriendRequest
  deriving Repr, DecidableEq

/-- Characters removed by JavaScript's `String.prototype.trim`: the
ECMA-262 WhiteSpace code points (TAB, VT, FF, SP, NBSP, BOM and every
Zs space separator: U+1680, U+2000..U+200A, U+202F, U+205F, U+3000)
and the LineTerminator code points (LF, CR, LS, PS). -/
def isJsWhitespace (c : Char) : Bool :=
  c == '\t' || c == '\n' || c == '\x0b' || c == '\x0c' || c == '\r' ||
  c == ' ' || c == '\u00A0' || c == '\u1680' ||
  c == '\u2000' || c == '\u2001' || c == '\u2002' || c == '\u2003' ||
  c == '\u2004' || c == '\u2005' || c == '\u2006' || c == '\u2007' ||
  c == '\u2008' || c == '\u2009' || c == '\u200A' ||
  c == '\u2028' || c == '\u2029' ||
  c == '\u202F' || c == '\u205F' || c == '\u3000' || c == '\uFEFF'

/-- JavaScript `content.trim()`: strip leading and trailing whitespace. -/
def jsTrim (s : String) : String :=
  ⟨((s.data.dropWhile isJsWhitespace).reverse.dropWhile isJsWhitespace).reverse⟩

/-- Response of `POST /api/protected/users`. -/
inductive CreateUserResult where
  | created (u : User)
  | alreadyExists
  deriving Repr, DecidableEq

/-- `POST /api/protected/users`: insert with `onConflictDoNothing` on the
primary key `id`; a skipped insert answers 200 "exists", a real insert
201 "created". The email column carries no unique constraint. -/
def postUsers (st : DBState) (authenticatedUserId email : String) (now : Nat) :
    CreateUserResult × DBState :=
  if st.users.any (fun u => u.id == authenticatedUserId) then
    (.alreadyExists, st)
  else
    let u : User := ⟨authenticatedUserId, email, now⟩
    (.created u, { st with users := st.users ++ [u] })

/-- Response of `DELETE /api/protected/users/:userId`. -/
inductive DeleteUserResult where
  | deleted (u : User)
  | notFound
  deriving Repr, DecidableEq

/-- `DELETE /api/protected/users/:userId`: delete the row with that id;
404 when nothing was deleted. The schema declares `onDelete: 'cascade'`
from `secret_messages.user_id`, `friend_requests.sender_id` and
`friend_requests.receiver_id` to `users.id`, so the store also removes
those dependent rows. -/
def deleteUsers (st : DBState) (userId : String) : DeleteUserResult × DBState :=
  match st.users.filter (fun u => u.id == userId) with
  | [] => (.notFound, st)
  | u :: _ =>
    (.deleted u,
      { users := st.users.filter (fun v => v.id != userId),
        secretMessages := st.secretMessages.filter (fun m => m.user_id != userId),
        friendRequests :=
          st.friendRequests.filter
            (fun fr => fr.sender_id != userId && fr.receiver_id != userId) })

/-- Response of `POST /api/protected/secret`. -/
inductive CreateSecretResult where
  | created (m : SecretMessage)
  | invalidRequest
  | serverError
  deriving Repr, DecidableEq

/-- `POST /api/protected/secret`: reject (400) when the user id is missing
or the content trims to empty, before any store call; otherwise insert a
new row with trimmed content. An insert violating the foreign key from
`user_id` to `users.id` raises, is caught, and becomes a 500. -/
def postSecret (st : DBState) (userId content newId : String) (now : Nat) :
    CreateSecretResult × DBState :=
  if userId == "" || jsTrim content == "" then
    (.invalidRequest, st)
  else if st.users.any (fun u => u.id == userId) then
    let m : SecretMessage := ⟨newId, userId, jsTrim content, now⟩
    (.created m, { st with secretMessages := st.secretMessages ++ [m] })
  else
    (.serverError, st)

/-- Response of `PUT /api/protected/secret/:id`. -/
inductive UpdateSecretResult where
  | updated (m : SecretMessage)
  | invalidRequest
  | notFound
  deriving Repr, DecidableEq

/-- `PUT /api/protected/secret/:id`: reject (400) when the user id or the
message id is missing or the content trims to empty; otherwise update the
rows whose `id` matches — the `where` clause filters by `secretMessages.id`
only, with no condition on `user_id` — setting trimmed content and a fresh
timestamp; 404 when no row matched. -/
def putSecret (st : DBState) (msgId content userId : String) (now : Nat) :
    UpdateSecretResult × DBState :=
  if userId == "" || msgId == "" || jsTrim content == "" then
    (.invalidRequest, st)
  else
    match (st.secretMessages.filter (fun m => m.id == msgId)).map
        (fun m => if m.id == msgId
          then { m with content := jsTrim content, updated_at := now } else m) with
    | [] => (.notFound, st)
    | r :: _ =>
      (.updated r,
        { st with secretMessages := (st.secretMessages.map (fun m =>
            if m.id == msgId
            then { m with content := jsTrim content, updated_at := now } else m)) })

/-- Response of `POST /api/protected/add-friend`. -/
inductive AddFriendResult where
  | ok (fr : FriendRequest)
  | invalidRequest
  | conflict
  | serverError
  deriving Repr, DecidableEq

/-- `POST /api/protected/add-friend`: 400 when the receiver id is missing
or equals the sender; 409 when a row for the ordered pair
(sender, receiver) already exists (`findFirst` before insert); otherwise
insert a pending edge. An insert violating a foreign key to `users.id`
raises, is caught, and becomes a 500. -/
def addFriend (st : DBState) (senderId receiverId newId : String) (now : Nat) :
    AddFriendResult × DBState :=
  if receiverId == "" || receiverId == senderId then
    (.invalidRequest, st)
  else
    match st.friendRequests.find?
        (fun fr => fr.sender_id == senderId && fr.receiver_id == receiverId) with
    | some _ => (.conflict, st)
    | none =>
      if st.users.any (fun u => u.id == senderId) &&
          st.users.any (fun u => u.id == receiverId) then
        let fr : FriendRequest := ⟨newId, senderId, receiverId, .pending, now⟩
        (.ok fr, { st with friendRequests := st.friendRequests ++ [fr] })
      else
        (.serverError, st)

/-- Response of `POST /api/protected/friends/accept`: the handler always
answers `res.json(\x7b success: true, data: updated \x7d)` where `updated` is the
first updated row, possibly `undefined`; it has no 404 branch. -/
inductive AcceptResult where
  | ok (data : Option FriendRequest)
  deriving Repr, DecidableEq

/-- `POST /api/protected/friends/accept`: set `status = 'accepted'` on the
rows where `id = requestId` and `receiver_id` equals the asserted user;
reply 200 with the first updated row, or with no data when nothing
matched. -/
def friendsAccept (st : DBState) (requestId userId : String) :
    AcceptResult × DBState :=
  let hit := fun (fr : FriendRequest) => fr.id == requestId && fr.receiver_id == userId
  let upd := fun (fr : FriendRequest) =>
    if hit fr then { fr with status := .accepted } else fr
  ((.ok (((st.friendRequests.filter hit).map upd).head?)),
    { st with friendRequests := st.friendRequests.map upd })

/-- Response of `DELETE /api/protected/friends/:requestId`. -/
inductive DeleteFriendResult where
  | deleted (fr : FriendRequest)
  | notFound
  deriving Repr, DecidableEq

/-- `DELETE /api/protected/friends/:requestId`: delete the rows whose `id`
matches (the asserted user id is read but never used in the query); 404
when nothing was deleted. -/
def deleteFriend (st : DBState) (requestId : String) :
    DeleteFriendResult × DBState :=
  match st.friendRequests.filter (fun fr => fr.id == requestId) with
  | [] => (.notFound, st)
  | r :: _ =>
    (.deleted r,
      { st with friendRequests := st.friendRequests.filter (fun fr => fr.id != requestId) })

/-- One row of the friend-secrets response: the columns selected by the
join in `GET /api/protected/friends/messages/:friendId`. -/
structure FriendSecretRow where
  sender_id : String
  receiver_id : String
  friend_email : String
  friend_secret : String
  secret_message_id : String
  created_at : Nat
  deriving Repr, DecidableEq

/-- Response of `GET /api/protected/friends/messages/:friendId`. -/
inductive FriendMessagesResult where
  | unauthorized
  | ok (rows : List FriendSecretRow)
  deriving Repr, DecidableEq

/-- The friendship check of `GET /friends/messages/:friendId`: select the
`friend_requests` rows with `sender_id = friendId` and
`status = 'accepted'`. The asserted viewer id does not appear in it. -/
def friendshipCheck (st : DBState) (friendId : String) : List FriendRequest :=
  st.friendRequests.filter
    (fun fr => fr.sender_id == friendId && fr.status == ReqStatus.accepted)

/-- The secrets query of `GET /friends/messages/:friendId`: from
`friend_requests` where `receiver_id = userId` and `status = 'accepted'`,
inner-join `users` on `sender_id = users.id OR receiver_id = users.id`,
inner-join `secret_messages` on `secret_messages.user_id = users.id`.
The `friendId` path parameter does not appear in it. -/
def friendSecretRows (st : DBState) (userId : String) : List FriendSecretRow :=
  (st.friendRequests.filter
      (fun fr => fr.receiver_id == userId && fr.status == ReqStatus.accepted)).flatMap
    (fun fr =>
      (st.users.filter (fun u => fr.sender_id == u.id || fr.receiver_id == u.id)).flatMap
        (fun u =>
          (st.secretMessages.filter (fun m => m.user_id == u.id)).map
            (fun m =>
              { sender_id := fr.sender_id
                receiver_id := fr.receiver_id
                friend_email := u.email
                friend_secret := m.content
                secret_message_id := m.id
                created_at := fr.created_at })))

/-- `GET /api/protected/friends/messages/:friendId`: 401 when the
friendship check returns no row, otherwise 200 with the joined rows.
The database is not mutated. -/
def getFriendsMessages (st : DBState) (userId friendId : String) :
    FriendMessagesResult :=
  if (friendshipCheck st friendId).isEmpty then
    .unauthorized
  else
    .ok (friendSecretRows st userId)

/-! ## Concrete rows and states used by the concrete-input theorems -/

/-- A user with id "A". -/
def userA : User := ⟨"A", "a@x.com", 0⟩

/-- A user with id "B". -/
def userB : User := ⟨"B", "b@x.com", 0⟩

/-- A user with id "C". -/
def userC : User := ⟨"C", "c@x.com", 0⟩

/-- A secret owned by user "A". -/
def secretS : SecretMessage := ⟨"s1", "A", "old", 0⟩

/-- A secret owned by user "B". -/
def secretSB : SecretMessage := ⟨"s2", "B", "bsecret", 0⟩

/-- An accepted friend-request edge from "A" to "B". -/
def edgeAB : FriendRequest := ⟨"r1", "A", "B", .accepted, 0⟩

/-- A pending friend-request edge from "A" to "B". -/
def edgeABpending : FriendRequest := ⟨"r1", "A", "B", .pending, 0⟩

/-- State with users A and B and a secret owned by A. -/
def stC1 : DBState := ⟨[userA, userB], [secretS], []⟩

/-- State with users A, B, C, a secret owned by A, and an accepted edge A → B. -/
def stC2 : DBState := ⟨[userA, userB, userC], [secretS], [edgeAB]⟩

/-- State with users A and B, secrets owned by A and by B, and an accepted
edge A → B. -/
def stC3 : DBState := ⟨[userA, userB], [secretS, secretSB], [edgeAB]⟩

/-- State with users A and B and a pending edge A → B. -/
def stC5 : DBState := ⟨[userA, userB], [], [edgeABpending]⟩

/-- State with users A and B and nothing else. -/
def stAB0 : DBState := ⟨[userA, userB], [], []⟩

/-! ## Helper lemmas -/

/-- A string all of whose characters are JavaScript whitespace trims to
the empty string. -/
theorem jsTrim_of_all_whitespace {s : String} (h : ∀ c ∈ s.data, isJsWhitespace c) :
    jsTrim s = "" := by
  unfold jsTrim
  have h1 : s.data.dropWhile isJsWhitespace = [] := by
    rw [List.dropWhile_eq_nil_iff]
    exact h
  rw [h1]
  rfl

/-! ## Claim theorems -/

/-- Claim C1 (code bug demonstration): the PUT secret handler matches the
row by `id` alone, so a call by user "B" on the secret owned by user "A"
succeeds (HTTP 200) and overwrites the content and timestamp, where the
handler's own comment and the spec require an ownership check and a 404. -/
theorem updateSecret_crossUser_overwrites :
    putSecret stC1 "s1" "hacked" "B" 7 =
      (.updated ⟨"s1", "A", "hacked", 7⟩,
        ⟨[userA, userB], [⟨"s1", "A", "hacked", 7⟩], []⟩) := by
  decide

/-- Claim C6: for every content string that is empty or consists only of
whitespace, `POST /secret` and `PUT /secret/:id` answer 400 invalid
request before any store call and leave the state unchanged. -/
theorem createSecret_updateSecret_reject_whitespace
    (st : DBState) (userId msgId content newId : String) (now : Nat)
    (h : ∀ c ∈ content.data, isJsWhitespace c) :
    postSecret st userId content newId now = (.invalidRequest, st) ∧
    putSecret st msgId content userId now = (.invalidRequest, st) := by
  have ht : jsTrim content = "" := jsTrim_of_all_whitespace h
  constructor
  · unfold postSecret
    rw [ht]
    simp
  · unfold putSecret
    rw [ht]
    simp

/-- Witness for C6 at the single-space content string. -/
theorem createSecret_updateSecret_reject_whitespace_witness :
    postSecret ⟨[], [], []⟩ "A" " " "s9" 0 = (.invalidRequest, ⟨[], [], []⟩) ∧
    putSecret ⟨[], [], []⟩ "s9" " " "A" 0 = (.invalidRequest, ⟨[], [], []⟩) :=
  createSecret_updateSecret_reject_whitespace ⟨[], [], []⟩ "A" "s9" " " "s9" 0 (by decide)

/-- Claim C7: a self friend request is always rejected with 400 invalid
request and inserts nothing. -/
theorem sendRequest_self_invalid (st : DBState) (a newId : String) (now : Nat) :
    addFriend st a a newId now = (.invalidRequest, st) := by
  unfold addFriend
  simp

/-- Claim C9: creating a user twice with the same fresh id answers
"created" then "exists", and the second call leaves the state (hence the
stored row and its email) unchanged, even when a different email is sent. -/
theorem createUser_idempotent (st : DBState) (uid email email2 : String) (t1 t2 : Nat)
    (h : ∀ u ∈ st.users, u.id ≠ uid) :
    (postUsers st uid email t1).1 = .created ⟨uid, email, t1⟩ ∧
    (postUsers (postUsers st uid email t1).2 uid email2 t2).1 = .alreadyExists ∧
    (postUsers (postUsers st uid email t1).2 uid email2 t2).2 =
      (postUsers st uid email t1).2 := by
  have h1 : st.users.any (fun u => u.id == uid) = false := by
    rw [List.any_eq_false]
    intro u hu
    simp [h u hu]
  unfold postUsers
  rw [h1]
  simp [List.any_append]

/-- Witness for C9 from the empty state. -/
theorem createUser_idempotent_witness :
    (postUsers ⟨[], [], []⟩ "A" "a@x.com" 1).1 = .created ⟨"A", "a@x.com", 1⟩ ∧
    (postUsers (postUsers ⟨[], [], []⟩ "A" "a@x.com" 1).2 "A" "a2@x.com" 2).1 =
      .alreadyExists ∧
    (postUsers (postUsers ⟨[], [], []⟩ "A" "a@x.com" 1).2 "A" "a2@x.com" 2).2 =
      (postUsers ⟨[], [], []⟩ "A" "a@x.com" 1).2 :=
  createUser_idempotent ⟨[], [], []⟩ "A" "a@x.com" "a2@x.com" 1 2 (by decide)

/-- Claim C10: deleting an existing user succeeds and cascades — no user
row, no secret, and no edge referencing the deleted id remains — while
deleting an absent id answers 404 and changes nothing. -/
theorem deleteUser_cascades (st : DBState) (a : String) :
    ((∃ u ∈ st.users, u.id = a) →
      (∃ u, (deleteUsers st a).1 = .deleted u) ∧
      (∀ u ∈ (deleteUsers st a).2.users, u.id ≠ a) ∧
      (∀ m ∈ (deleteUsers st a).2.secretMessages, m.user_id ≠ a) ∧
      (∀ fr ∈ (deleteUsers st a).2.friendRequests,
        fr.sender_id ≠ a ∧ fr.receiver_id ≠ a)) ∧
    ((∀ u ∈ st.users, u.id ≠ a) → deleteUsers st a = (.notFound, st)) := by
  unfold deleteUsers
  cases hf : st.users.filter (fun u => u.id == a) with
  | nil =>
    rw [List.filter_eq_nil_iff] at hf
    constructor
    · rintro ⟨u, hu, hid⟩
      exact absurd (by simp [hid]) (hf u hu)
    · intro _
      rfl
  | cons u rest =>
    constructor
    · intro _
      refine ⟨⟨u, rfl⟩, ?_, ?_, ?_⟩
      · intro v hv
        have := (List.mem_filter.mp hv).2
        simpa using this
      · intro m hm
        have := (List.mem_filter.mp hm).2
        simpa using this
      · intro fr hfr
        have := (List.mem_filter.mp hfr).2
        simpa [and_comm] using (Bool.and_eq_true _ _ |>.mp this)
    · intro hnone
      have hu : u ∈ st.users.filter (fun u => u.id == a) := by
        rw [hf]
        exact List.mem_cons_self u rest
      have := List.mem_filter.mp hu
      exact absurd (by simpa using this.2) (hnone u this.1)

/-- Witness for C10: delete user "A" from a populated state, and delete an
absent id "Z". -/
theorem deleteUser_cascades_witness :
    ((∃ u, (deleteUsers stC3 "A").1 = .deleted u) ∧
      (∀ u ∈ (deleteUsers stC3 "A").2.users, u.id ≠ "A") ∧
      (∀ m ∈ (deleteUsers stC3 "A").2.secretMessages, m.user_id ≠ "A") ∧
      (∀ fr ∈ (deleteUsers stC3 "A").2.friendRequests,
        fr.sender_id ≠ "A" ∧ fr.receiver_id ≠ "A")) ∧
    deleteUsers stC3 "Z" = (.notFound, stC3) :=
  ⟨(deleteUser_cascades stC3 "A").1 ⟨userA, by decide, rfl⟩,
   (deleteUser_cascades stC3 "Z").2 (by decide)⟩

/-- Claim C4: the authorized/unauthorized decision of
`GET /friends/messages/:friendId` depends only on the target id and the
state: any two asserted viewer ids receive the same decision. -/
theorem friendSecrets_decision_viewer_independent
    (st : DBState) (target v1 v2 : String) :
    (getFriendsMessages st v1 target = .unauthorized ↔
     getFriendsMessages st v2 target = .unauthorized) := by
  unfold getFriendsMessages
  cases h : (friendshipCheck st target).isEmpty <;> simp [h]

/-- Claim C2 (counterexample): with only an accepted edge A → B in the
store, viewer "C" requesting target "A" is NOT answered Unauthorized,
although no accepted edge has receiver "C" — the friendship check never
consults the viewer, so the claimed iff (receiver_id = viewer_id) fails. -/
theorem canViewFriendSecrets_receiver_ignored :
    getFriendsMessages stC2 "C" "A" ≠ .unauthorized := by
  decide

/-- Claim C2 (amended): the request is authorized iff some edge has
`status = accepted` and `sender_id = target` — the receiver/viewer is not
consulted; the claim's concrete scenario still holds: with accepted edge
A → B, viewer B on target A succeeds and viewer A on target B is
Unauthorized. -/
theorem canViewFriendSecrets_amended (st : DBState) (viewerId targetId : String) :
    (getFriendsMessages st viewerId targetId ≠ .unauthorized ↔
      ∃ fr ∈ st.friendRequests, fr.sender_id = targetId ∧ fr.status = .accepted) ∧
    (getFriendsMessages stC2 "B" "A" ≠ .unauthorized ∧
     getFriendsMessages stC2 "A" "B" = .unauthorized) := by
  refine ⟨?_, by decide, by decide⟩
  have hdec : getFriendsMessages st viewerId targetId = .unauthorized ↔
      (st.friendRequests.filter
        (fun fr => fr.sender_id == targetId && fr.status == ReqStatus.accepted)) = [] := by
    unfold getFriendsMessages friendshipCheck
    cases hf : st.friendRequests.filter
        (fun fr => fr.sender_id == targetId && fr.status == ReqStatus.accepted) <;>
      simp [hf]
  have key : (st.friendRequests.filter
        (fun fr => fr.sender_id == targetId && fr.status == ReqStatus.accepted)) = [] ↔
      ¬ ∃ fr ∈ st.friendRequests, fr.sender_id = targetId ∧ fr.status = .accepted := by
    rw [List.filter_eq_nil_iff]
    constructor
    · rintro h ⟨fr, hm, h1, h2⟩
      exact absurd (by simp [h1, h2]) (h fr hm)
    · intro h fr hm hp
      exact h ⟨fr, hm, by simpa using hp⟩
  rw [Ne, hdec, key]
  exact not_not

/-- Claim C5 (counterexample): for the pending edge r1 = (sender A,
receiver B), the wrong-party call `acceptRequest(r1, A)` does not answer
NotFound: the handler replies 200 success with no data, and the state —
including the pending status — is unchanged. -/
theorem acceptRequest_wrongParty_noNotFound :
    friendsAccept stC5 "r1" "A" = (.ok none, stC5) := by
  decide

/-- Claim C5 (amended): accept transitions the edge to accepted only when
the acting user is the receiver; any row whose receiver is not the acting
user is left unchanged, and when no row matches both the id and the
receiver the handler answers 200 success with empty data (the model's
only response shape), not NotFound. -/
theorem acceptRequest_amended (st : DBState) (reqId uid : String) (fr : FriendRequest)
    (hmem : fr ∈ st.friendRequests) (hid : fr.id = reqId) :
    (fr.receiver_id = uid →
      { fr with status := .accepted } ∈ (friendsAccept st reqId uid).2.friendRequests) ∧
    (fr.receiver_id ≠ uid → fr ∈ (friendsAccept st reqId uid).2.friendRequests) ∧
    ((∀ fr2 ∈ st.friendRequests, ¬(fr2.id = reqId ∧ fr2.receiver_id = uid)) →
      (friendsAccept st reqId uid).1 = .ok none) := by
  unfold friendsAccept
  refine ⟨?_, ?_, ?_⟩
  · intro hrecv
    have := List.mem_map_of_mem
      (fun fr => if fr.id == reqId && fr.receiver_id == uid
        then { fr with status := ReqStatus.accepted } else fr) hmem
    simpa [hid, hrecv] using this
  · intro hrecv
    have := List.mem_map_of_mem
      (fun fr => if fr.id == reqId && fr.receiver_id == uid
        then { fr with status := ReqStatus.accepted } else fr) hmem
    simpa [hrecv] using this
  · intro hnone
    have hfil : st.friendRequests.filter
        (fun fr => fr.id == reqId && fr.receiver_id == uid) = [] := by
      rw [List.filter_eq_nil_iff]
      intro fr2 hm2
      have := hnone fr2 hm2
      simpa using this
    simp [hfil]

/-- Witness for C5: accepting r1 as receiver "B" makes the accepted edge
present; the wrong-party call as "A" answers success with empty data. -/
theorem acceptRequest_amended_witness :
    ({ edgeABpending with status := ReqStatus.accepted } ∈
        (friendsAccept stC5 "r1" "B").2.friendRequests) ∧
    (friendsAccept stC5 "r1" "A").1 = .ok none :=
  ⟨(acceptRequest_amended stC5 "r1" "B" edgeABpending (by decide) rfl).1 rfl,
   (acceptRequest_amended stC5 "r1" "A" edgeABpending (by decide) rfl).2.2 (by decide)⟩

/-- Membership in the friend-secrets join: a row appears exactly when some
accepted edge received by the asserted user, some user on either side of
that edge, and some secret of that user produce it. -/
theorem mem_friendSecretRows {st : DBState} {userId : String} {r : FriendSecretRow} :
    r ∈ friendSecretRows st userId ↔
      ∃ fr ∈ st.friendRequests, (fr.receiver_id = userId ∧ fr.status = .accepted) ∧
      ∃ u ∈ st.users, (fr.sender_id = u.id ∨ fr.receiver_id = u.id) ∧
      ∃ m ∈ st.secretMessages, m.user_id = u.id ∧
        r = ⟨fr.sender_id, fr.receiver_id, u.email, m.content, m.id, fr.created_at⟩ := by
  unfold friendSecretRows
  simp only [List.mem_flatMap, List.mem_map, List.mem_filter, Bool.and_eq_true,
    Bool.or_eq_true, beq_iff_eq]
  constructor
  · rintro ⟨fr, ⟨hfr, hrecv, hacc⟩, u, ⟨hu, hside⟩, m, ⟨hm, hmu⟩, hrow⟩
    exact ⟨fr, hfr, ⟨hrecv, hacc⟩, u, hu, by tauto, m, hm, hmu, hrow.symm⟩
  · rintro ⟨fr, hfr, ⟨hrecv, hacc⟩, u, hu, hside, m, hm, hmu, hrow⟩
    exact ⟨fr, ⟨hfr, hrecv, hacc⟩, u, ⟨hu, by tauto⟩, m, ⟨hm, hmu⟩, hrow.symm⟩

/-- Claim C3 (counterexample): with users A, B, secrets s1 (owner A) and
s2 (owner B), and accepted edge A → B, the authorized call by viewer "B"
for target "A" returns a row for secret "s2", which is owned by "B" and
not by the target "A" — the result is not "exactly the secrets owned by
target_id". -/
theorem getFriendSecrets_returns_nonTarget_secret :
    getFriendsMessages stC3 "B" "A" =
      .ok [⟨"A", "B", "a@x.com", "old", "s1", 0⟩,
           ⟨"A", "B", "b@x.com", "bsecret", "s2", 0⟩] ∧
    secretSB ∈ stC3.secretMessages ∧ secretSB.id = "s2" ∧ secretSB.user_id ≠ "A" := by
  decide

/-- Claim C3 (amended): when the call is authorized, a secret contributes
a returned row exactly when its owner exists in the users table and is a
party (sender or receiver) to some accepted edge whose receiver is the
asserted viewer — independent of the target id, and so not restricted to
the target's secrets. -/
theorem getFriendSecrets_amended (st : DBState) (viewerId targetId : String)
    (rows : List FriendSecretRow)
    (hres : getFriendsMessages st viewerId targetId = .ok rows)
    (hpk : ∀ m1 ∈ st.secretMessages, ∀ m2 ∈ st.secretMessages, m1.id = m2.id → m1 = m2)
    (m : SecretMessage) (hm : m ∈ st.secretMessages) :
    (∃ r ∈ rows, r.secret_message_id = m.id) ↔
      ((∃ u ∈ st.users, u.id = m.user_id) ∧
        ∃ fr ∈ st.friendRequests, fr.status = .accepted ∧ fr.receiver_id = viewerId ∧
          (fr.sender_id = m.user_id ∨ fr.receiver_id = m.user_id)) := by
  have hrows : rows = friendSecretRows st viewerId := by
    unfold getFriendsMessages at hres
    split at hres
    · cases hres
    · cases hres
      rfl
  subst hrows
  constructor
  · rintro ⟨r, hr, hid⟩
    rw [mem_friendSecretRows] at hr
    obtain ⟨fr, hfr, ⟨hrecv, hacc⟩, u, hu, hside, m', hm', hmu, hrow⟩ := hr
    have hmid : m'.id = m.id := by
      rw [hrow] at hid
      exact hid
    have hmm : m' = m := hpk m' hm' m hm hmid
    subst hmm
    refine ⟨⟨u, hu, hmu.symm⟩, fr, hfr, hacc, hrecv, ?_⟩
    rw [hmu]
    exact hside
  · rintro ⟨⟨u, hu, huid⟩, fr, hfr, hacc, hrecv, hside⟩
    refine ⟨⟨fr.sender_id, fr.receiver_id, u.email, m.content, m.id, fr.created_at⟩,
      ?_, rfl⟩
    rw [mem_friendSecretRows]
    refine ⟨fr, hfr, ⟨hrecv, hacc⟩, u, hu, ?_, m, hm, huid.symm, rfl⟩
    rw [huid]
    exact hside

/-- Witness for C3 at the concrete authorized call of the counterexample
state: secret s2 (owner "B") satisfies the amended membership condition. -/
theorem getFriendSecrets_amended_witness :
    (∃ r ∈ [(⟨"A", "B", "a@x.com", "old", "s1", 0⟩ : FriendSecretRow),
            ⟨"A", "B", "b@x.com", "bsecret", "s2", 0⟩], r.secret_message_id = secretSB.id) ↔
      ((∃ u ∈ stC3.users, u.id = secretSB.user_id) ∧
        ∃ fr ∈ stC3.friendRequests, fr.status = .accepted ∧ fr.receiver_id = "B" ∧
          (fr.sender_id = secretSB.user_id ∨ fr.receiver_id = secretSB.user_id)) :=
  getFriendSecrets_amended stC3 "B" "A"
    [⟨"A", "B", "a@x.com", "old", "s1", 0⟩, ⟨"A", "B", "b@x.com", "bsecret", "s2", 0⟩]
    (by decide) (by decide) secretSB (by decide)

/-! ## Reachability and the unique-pair invariant -/

/-- Number of friend-request rows for the ordered pair (sender, receiver). -/
def pairCount (st : DBState) (senderId receiverId : String) : Nat :=
  st.friendRequests.countP
    (fun fr => fr.sender_id == senderId && fr.receiver_id == receiverId)

/-- States reachable from the empty database through the API handlers. -/
inductive Reachable : DBState → Prop where
  | init : Reachable ⟨[], [], []⟩
  | createUser (st : DBState) (uid email : String) (t : Nat) :
      Reachable st → Reachable (postUsers st uid email t).2
  | removeUser (st : DBState) (uid : String) :
      Reachable st → Reachable (deleteUsers st uid).2
  | createSecret (st : DBState) (uid content newId : String) (t : Nat) :
      Reachable st → Reachable (postSecret st uid content newId t).2
  | updateSecret (st : DBState) (msgId content uid : String) (t : Nat) :
      Reachable st → Reachable (putSecret st msgId content uid t).2
  | sendRequest (st : DBState) (senderId receiverId newId : String) (t : Nat) :
      Reachable st → Reachable (addFriend st senderId receiverId newId t).2
  | acceptRequest (st : DBState) (reqId uid : String) :
      Reachable st → Reachable (friendsAccept st reqId uid).2
  | removeRequest (st : DBState) (reqId : String) :
      Reachable st → Reachable (deleteFriend st reqId).2

/-- `POST /users` does not touch the friend-requests table. -/
theorem postUsers_friendRequests (st : DBState) (uid email : String) (t : Nat) :
    (postUsers st uid email t).2.friendRequests = st.friendRequests := by
  unfold postUsers
  split <;> rfl

/-- `POST /secret` does not touch the friend-requests table. -/
theorem postSecret_friendRequests (st : DBState) (uid content newId : String) (t : Nat) :
    (postSecret st uid content newId t).2.friendRequests = st.friendRequests := by
  unfold postSecret
  split
  · rfl
  · split <;> rfl

/-- `PUT /secret/:id` does not touch the friend-requests table. -/
theorem putSecret_friendRequests (st : DBState) (msgId content uid : String) (t : Nat) :
    (putSecret st msgId content uid t).2.friendRequests = st.friendRequests := by
  unfold putSecret
  split
  · rfl
  · split <;> rfl

/-- `DELETE /users/:userId` can only shrink any ordered-pair count. -/
theorem deleteUsers_pairCount_le (st : DBState) (uid a b : String) :
    pairCount (deleteUsers st uid).2 a b ≤ pairCount st a b := by
  unfold deleteUsers pairCount
  split
  · exact Nat.le_refl _
  · exact (List.filter_sublist _).countP_le _

/-- `DELETE /friends/:requestId` can only shrink any ordered-pair count. -/
theorem deleteFriend_pairCount_le (st : DBState) (reqId a b : String) :
    pairCount (deleteFriend st reqId).2 a b ≤ pairCount st a b := by
  unfold deleteFriend pairCount
  split
  · exact Nat.le_refl _
  · exact (List.filter_sublist _).countP_le _

/-- `POST /friends/accept` only rewrites statuses and keeps every
ordered-pair count. -/
theorem friendsAccept_pairCount (st : DBState) (reqId uid a b : String) :
    pairCount (friendsAccept st reqId uid).2 a b = pairCount st a b := by
  unfold friendsAccept pairCount
  simp only [List.countP_map]
  apply List.countP_congr
  intro fr _
  by_cases h : (fr.id == reqId && fr.receiver_id == uid) = true <;>
    simp [Function.comp, h]

/-- A successful `POST /add-friend` means: the validation passed, no row
for the ordered pair existed, the returned row is the inserted pending
edge, and the new state appends exactly that edge. -/
theorem addFriend_ok (st : DBState) (a b newId : String) (t : Nat) (r : FriendRequest)
    (hok : (addFriend st a b newId t).1 = .ok r) :
    (b == "" || b == a) = false ∧
    st.friendRequests.find? (fun fr => fr.sender_id == a && fr.receiver_id == b) = none ∧
    r = ⟨newId, a, b, .pending, t⟩ ∧
    (addFriend st a b newId t).2 =
      ⟨st.users, st.secretMessages,
        st.friendRequests ++ [⟨newId, a, b, .pending, t⟩]⟩ := by
  unfold addFriend at hok ⊢
  split at hok
  · cases hok
  · rename_i hval
    split at hok
    · cases hok
    · rename_i hfind
      split at hok
      · rename_i hfk
        have hok' : AddFriendResult.ok
            (⟨newId, a, b, .pending, t⟩ : FriendRequest) = AddFriendResult.ok r := hok
        refine ⟨by simpa using hval, hfind, (AddFriendResult.ok.inj hok').symm, ?_⟩
        rw [if_pos hfk, if_neg hval]
      · cases hok

/-- Claim C8: (1) after a successful `POST /add-friend` for (A, B), an
immediate second identical call answers 409 Conflict, leaves the state
unchanged, and exactly one edge for the ordered pair (A, B) exists;
(2) every state reachable from the empty database carries at most one
edge per ordered (sender, receiver) pair. -/
theorem sendRequest_twice_conflict_and_unique :
    (∀ (st : DBState) (a b id1 id2 : String) (t1 t2 : Nat) (r : FriendRequest),
      (addFriend st a b id1 t1).1 = .ok r →
      (addFriend (addFriend st a b id1 t1).2 a b id2 t2).1 = .conflict ∧
      (addFriend (addFriend st a b id1 t1).2 a b id2 t2).2 = (addFriend st a b id1 t1).2 ∧
      pairCount (addFriend st a b id1 t1).2 a b = 1) ∧
    (∀ st : DBState, Reachable st → ∀ a b : String, pairCount st a b ≤ 1) := by
  constructor
  · intro st a b id1 id2 t1 t2 r hok
    obtain ⟨hval, hfind, hr, hst1⟩ := addFriend_ok st a b id1 t1 r hok
    have hzero : st.friendRequests.countP
        (fun fr => fr.sender_id == a && fr.receiver_id == b) = 0 := by
      rw [List.countP_eq_zero]
      intro fr hfr
      have := List.find?_eq_none.mp hfind fr hfr
      simpa using this
    have h2 : addFriend (⟨st.users, st.secretMessages,
        st.friendRequests ++ [⟨id1, a, b, .pending, t1⟩]⟩ : DBState) a b id2 t2 =
        (.conflict, ⟨st.users, st.secretMessages,
          st.friendRequests ++ [⟨id1, a, b, .pending, t1⟩]⟩) := by
      unfold addFriend
      rw [if_neg (by simp [hval])]
      dsimp only
      cases hf2 : (st.friendRequests ++
          [(⟨id1, a, b, .pending, t1⟩ : FriendRequest)]).find?
            (fun fr => fr.sender_id == a && fr.receiver_id == b) with
      | none =>
        exfalso
        have := List.find?_eq_none.mp hf2 (⟨id1, a, b, .pending, t1⟩ : FriendRequest)
          (by simp)
        simp at this
      | some fr2 => rfl
    rw [hst1]
    refine ⟨by rw [h2], by rw [h2], ?_⟩
    unfold pairCount
    dsimp only
    rw [List.countP_append, hzero]
    simp
  · intro st h a b
    induction h with
    | init => simp [pairCount]
    | createUser st uid email t _ ih =>
      unfold pairCount
      rw [postUsers_friendRequests]
      exact ih
    | removeUser st uid _ ih =>
      exact Nat.le_trans (deleteUsers_pairCount_le st uid a b) ih
    | createSecret st uid content newId t _ ih =>
      unfold pairCount
      rw [postSecret_friendRequests]
      exact ih
    | updateSecret st msgId content uid t _ ih =>
      unfold pairCount
      rw [putSecret_friendRequests]
      exact ih
    | sendRequest st senderId receiverId newId t _ ih =>
      unfold addFriend
      split
      · exact ih
      · split
        · exact ih
        · rename_i hfind
          split
          · unfold pairCount at ih ⊢
            dsimp only
            rw [List.countP_append]
            by_cases hp : ((⟨newId, senderId, receiverId, .pending, t⟩ :
                FriendRequest).sender_id == a &&
                (⟨newId, senderId, receiverId, .pending, t⟩ :
                  FriendRequest).receiver_id == b) = true
            · have hab : senderId = a ∧ receiverId = b := by
                simpa using hp
              have hzero : st.friendRequests.countP
                  (fun fr => fr.sender_id == a && fr.receiver_id == b) = 0 := by
                rw [List.countP_eq_zero]
                intro fr hfr
                have := List.find?_eq_none.mp hfind fr hfr
                rw [hab.1, hab.2] at this
                simpa using this
              simp [hzero, List.countP_cons, hp]
            · have h1 : ([(⟨newId, senderId, receiverId, .pending, t⟩ :
                  FriendRequest)].countP
                  (fun fr => fr.sender_id == a && fr.receiver_id == b)) = 0 := by
                simp only [List.countP_cons, List.countP_nil]
                simp only [Bool.not_eq_true] at hp
                simp [hp]
              rw [h1]
              simpa using ih
          · exact ih
    | acceptRequest st reqId uid _ ih =>
      rw [friendsAccept_pairCount]
      exact ih
    | removeRequest st reqId _ ih =>
      exact Nat.le_trans (deleteFriend_pairCount_le st reqId a b) ih

/-- Witness for C8: from the two-user state, the first request (A, B)
succeeds, the identical second answers Conflict without changing the
state, exactly one (A, B) edge exists, and the empty state satisfies the
unique-pair bound. -/
theorem sendRequest_twice_conflict_and_unique_witness :
    ((addFriend (addFriend stAB0 "A" "B" "r1" 0).2 "A" "B" "r2" 1).1 = .conflict ∧
     (addFriend (addFriend stAB0 "A" "B" "r1" 0).2 "A" "B" "r2" 1).2 =
       (addFriend stAB0 "A" "B" "r1" 0).2 ∧
     pairCount (addFriend stAB0 "A" "B" "r1" 0).2 "A" "B" = 1) ∧
    pairCount ⟨[], [], []⟩ "A" "B" ≤ 1 :=
  ⟨sendRequest_twice_conflict_and_unique.1 stAB0 "A" "B" "r1" "r2" 0 1
      ⟨"r1", "A", "B", .pending, 0⟩ (by decide),
   sendRequest_twice_conflict_and_unique.2 ⟨[], [], []⟩ Reachable.init "A" "B"⟩
